import Mathlib

/-!
Verification of the role-based permission engine of the event-platform
GraphQL server. The rule maps (DEFAULTS, FREE, PREMIUM, MODERATOR,
ADMINISTRATOR), the policy table and the mutation resolvers are embedded
from the repository sources (src/rb_permissions/index.ts and the mutation
resolver file). The combinators (allow, deny, not, and, or), the rule-map
composer OR/rbac (src/rb_permissions/inheritance, not included in the
sources) and the shield evaluator (the external graphql-shield library)
are modelled from the specification, sections 4.1 to 4.4.
-/

/-- Role enumeration, from the data model (Role in db-schema, referenced by
src/rb_permissions/index.ts). -/
inductive Role
  | FREE
  | PREMIUM
  | MODERATOR
  | ADMINISTRATOR
deriving DecidableEq, Repr

/-- Reference selector: whether a rule resolves its target entity from the
parent object or from the mutation argument (rules.Reference in the source). -/
inductive Reference
  | PARENT
  | ARG
deriving DecidableEq, Repr

/-- Atomic domain predicates, one per rule of the permissions/rules module
used by src/rb_permissions/index.ts. Their data-access behaviour is an
external collaborator (spec section 4.1), so evaluation takes an
environment assigning each atom a result. -/
inductive Atom
  | isCaller (ref : Reference)
  | callerIsInvitedToParent
  | callerManagesParent
  | callerAttendsParent
  | callerModeratesParent
  | callerOwnsParent
  | parentIsPrivate
  | parentIsLocked
  | callerManagesArg
  | callerOwnsArg
  | callerModeratesArg
  | callerAttendsArg
  | callerIsInvitedToArg
  | callerRequestsArg
  | argIsPrivate
  | argIsFlagged
  | argIsLocked
  | argHasRole (r : Role)
deriving DecidableEq, Repr

/-- Result of evaluating one rule: Allow, Deny, or Error with a message
(spec section 4.1: a Rule yields Allow, Deny, or Error(message)). -/
inductive RRes
  | allow
  | deny
  | err (msg : String)
deriving DecidableEq, Repr

/-- Rule expressions: the constant rules, atomic domain predicates, the
combinators not/and/or (variadic, as in graphql-shield), and a rule whose
evaluation throws an error with a message. -/
inductive Rule
  | allow
  | deny
  | atom (a : Atom)
  | not (r : Rule)
  | and (rs : List Rule)
  | or (rs : List Rule)
  | err (msg : String)

/-- Modelled from the spec, section 4.1: not(R) yields Deny if R yields
Allow, Allow if R yields Deny, and propagates Error. -/
def notStep : RRes → RRes
  | .allow => .deny
  | .deny => .allow
  | .err m => .err m

/-- Modelled from the spec, section 4.1: and evaluates left-to-right and
is Allow only if all children yield Allow; a Deny or Error child decides
the result (Errors stay distinguishable for diagnostics). -/
def andStep : RRes → RRes → RRes
  | .allow, rest => rest
  | .deny, _ => .deny
  | .err m, _ => .err m

/-- Modelled from the spec, section 4.1: or yields Allow on any Allow
child; Deny only if all children deny; an Error among non-allowing
results surfaces (as Deny at the evaluator) unless a later branch allows. -/
def orStep : RRes → RRes → RRes
  | .allow, _ => .allow
  | .deny, rest => rest
  | .err m, rest => match rest with
    | .allow => .allow
    | _ => .err m

mutual

/-- Modelled from the spec, section 4.1: evaluation of a rule expression
against an environment giving each atomic predicate its result. -/
def evalRule (env : Atom → RRes) : Rule → RRes
  | .allow => .allow
  | .deny => .deny
  | .atom a => env a
  | .not r => notStep (evalRule env r)
  | .and rs => evalAnd env rs
  | .or rs => evalOr env rs
  | .err m => .err m

/-- Modelled from the spec, sections 4.1 and 8: the variadic and over a
list of children; the empty list yields Allow (vacuous truth). -/
def evalAnd (env : Atom → RRes) : List Rule → RRes
  | [] => .allow
  | r :: rs => andStep (evalRule env r) (evalAnd env rs)

/-- Modelled from the spec, sections 4.1 and 8: the variadic or over a
list of children; the empty list yields Deny. -/
def evalOr (env : Atom → RRes) : List Rule → RRes
  | [] => .deny
  | r :: rs => orStep (evalRule env r) (evalOr env rs)

end

/-- A rule map: type name, then field name, to an optional rule
(spec section 3: Rule Map). -/
def RuleMap : Type := String → String → Option Rule

/-- The composite rule invitedOrManager of src/rb_permissions/index.ts. -/
def invitedOrManager : Rule :=
  .or [.atom .callerIsInvitedToParent, .atom .callerManagesParent]

/-- The composite rule publicOrInvitedOrAttending of
src/rb_permissions/index.ts. -/
def publicOrInvitedOrAttending : Rule :=
  .or [.not (.atom .parentIsPrivate), .atom .callerIsInvitedToParent,
       .atom .callerAttendsParent]

/-- The composite rule attendantUnlessLocked of src/rb_permissions/index.ts. -/
def attendantUnlessLocked : Rule :=
  .and [.atom .callerAttendsParent,
        .or [.not (.atom .parentIsLocked), .atom .callerManagesParent]]

/-- The DEFAULTS rule map of src/rb_permissions/index.ts: permissions for
not being logged in. -/
def DEFAULTS : RuleMap := fun ty f =>
  match ty, f with
  | "User", "_id" => some .allow
  | "Category", "_id" => some .allow
  | "Category", "name" => some .allow
  | "Category", "events" => some .allow
  | "Event", "_id" => some (.not (.atom .parentIsPrivate))
  | "Event", "title" => some (.not (.atom .parentIsPrivate))
  | "Event", "time" => some (.not (.atom .parentIsPrivate))
  | "Event", "description" => some (.not (.atom .parentIsPrivate))
  | "Event", "location" => some (.not (.atom .parentIsPrivate))
  | "Event", "owner" => some (.not (.atom .parentIsPrivate))
  | "Event", "private" => some (.not (.atom .parentIsPrivate))
  | "Event", "attendants" => some (.not (.atom .parentIsPrivate))
  | "Event", "managers" => some (.not (.atom .parentIsPrivate))
  | "Query", "events" => some .allow
  | "Mutation", "createUser" => some .allow
  | "Mutation", "login" => some .allow
  | _, _ => none

/-- The FREE rule map of src/rb_permissions/index.ts: unique permissions
of free users. -/
def FREE : RuleMap := fun ty f =>
  match ty, f with
  | "User", "_id" => some .allow
  | "User", "name" => some .allow
  | "User", "surname" => some .allow
  | "User", "username" => some .allow
  | "User", "role" => some .allow
  | "User", "moderates" => some .allow
  | "User", "attends" => some (.atom (.isCaller .PARENT))
  | "User", "requests" => some (.atom (.isCaller .PARENT))
  | "User", "authored" => some (.atom (.isCaller .PARENT))
  | "User", "subscribes" => some (.atom (.isCaller .PARENT))
  | "User", "invitations" => some (.atom (.isCaller .PARENT))
  | "User", "invites" => some (.atom (.isCaller .PARENT))
  | "Category", "_id" => some .allow
  | "Category", "name" => some .allow
  | "Category", "events" => some .allow
  | "Category", "moderators" => some .allow
  | "Invitation", "_id" => some invitedOrManager
  | "Invitation", "from" => some invitedOrManager
  | "Invitation", "invited" => some invitedOrManager
  | "Invitation", "to" => some invitedOrManager
  | "Event", "_id" => some publicOrInvitedOrAttending
  | "Event", "title" => some publicOrInvitedOrAttending
  | "Event", "time" => some publicOrInvitedOrAttending
  | "Event", "description" => some publicOrInvitedOrAttending
  | "Event", "location" => some publicOrInvitedOrAttending
  | "Event", "owner" => some publicOrInvitedOrAttending
  | "Event", "private" => some publicOrInvitedOrAttending
  | "Event", "attendants" => some publicOrInvitedOrAttending
  | "Event", "managers" => some publicOrInvitedOrAttending
  | "Event", "requests" => some (.atom .callerManagesParent)
  | "Event", "invited" => some (.atom .callerManagesParent)
  | "Event", "messageBoard" => some (.atom .callerAttendsParent)
  | "Post", "_id" => some attendantUnlessLocked
  | "Post", "content" => some attendantUnlessLocked
  | "Post", "author" => some attendantUnlessLocked
  | "Post", "postedAt" => some attendantUnlessLocked
  | "Post", "flagged" => some (.atom .callerManagesParent)
  | "Post", "locked" => some (.atom .callerManagesParent)
  | "Query", "users" => some .allow
  | "Query", "usersByUsername" => some .allow
  | "Query", "events" => some .allow
  | "Mutation", "createUser" => some .allow
  | "Mutation", "login" => some .allow
  | "Mutation", "editUser" => some (.atom (.isCaller .ARG))
  | "Mutation", "unsubscribe" => some .allow
  | "Mutation", "createEvent" => some (.not (.atom .argIsPrivate))
  | "Mutation", "editEvent" =>
      some (.and [.atom .callerManagesArg, .not (.atom .argIsPrivate)])
  | "Mutation", "addCategories" => some (.atom .callerManagesArg)
  | "Mutation", "removeCategories" => some (.atom .callerManagesArg)
  | "Mutation", "deleteEvent" => some (.atom .callerOwnsParent)
  | "Mutation", "kick" =>
      some (.and [.not (.and [.atom .callerOwnsArg, .atom (.isCaller .ARG)]),
                  .or [.atom (.isCaller .ARG), .atom .callerManagesArg]])
  | "Mutation", "promote" => some (.atom .callerOwnsArg)
  | "Mutation", "demote" =>
      some (.and [.atom .callerOwnsArg, .not (.atom (.isCaller .ARG))])
  | "Mutation", "invite" => some (.atom .callerManagesArg)
  | "Mutation", "acceptInvitation" => some (.atom .callerIsInvitedToArg)
  | "Mutation", "declineInvitation" =>
      some (.or [.atom .callerIsInvitedToArg, .atom .callerManagesArg])
  | "Mutation", "request" => some (.not (.atom .argIsPrivate))
  | "Mutation", "acceptRequest" => some (.atom .callerManagesArg)
  | "Mutation", "declineRequest" =>
      some (.or [.atom .callerRequestsArg, .atom .callerManagesArg])
  | "Mutation", "createPost" => some (.atom .callerAttendsArg)
  | "Mutation", "flagPost" => some (.atom .callerAttendsArg)
  | "Mutation", "review" =>
      some (.and [.atom .argIsFlagged, .atom .callerManagesArg])
  | _, _ => none

/-- The PREMIUM rule map of src/rb_permissions/index.ts: unique permissions
of premium users. -/
def PREMIUM : RuleMap := fun ty f =>
  match ty, f with
  | "Mutation", "subscribe" => some .allow
  | "Mutation", "createEvent" => some .allow
  | "Mutation", "editEvent" => some .allow
  | _, _ => none

/-- The MODERATOR rule map of src/rb_permissions/index.ts: unique
permissions of moderators. -/
def MODERATOR : RuleMap := fun ty f =>
  match ty, f with
  | "Category", "subscribers" => some (.atom .callerModeratesParent)
  | "Event", "messageBoard" => some (.atom .callerModeratesParent)
  | "Post", "_id" => some (.atom .callerModeratesParent)
  | "Post", "content" => some (.atom .callerModeratesParent)
  | "Post", "author" => some (.atom .callerModeratesParent)
  | "Post", "postedAt" => some (.atom .callerModeratesParent)
  | "Post", "flagged" => some (.atom .callerModeratesParent)
  | "Post", "locked" => some (.atom .callerModeratesParent)
  | "Mutation", "removeCategories" => some (.atom .callerModeratesArg)
  | "Mutation", "flagPost" => some (.atom .callerModeratesArg)
  | "Mutation", "review" =>
      some (.and [.atom .argIsFlagged, .atom .callerModeratesArg])
  | _, _ => none

/-- The ADMINISTRATOR rule map of src/rb_permissions/index.ts: unique
permissions of administrators. -/
def ADMINISTRATOR : RuleMap := fun ty f =>
  match ty, f with
  | "Category", "subscribers" => some .allow
  | "Event", "messageBoard" => some .allow
  | "Post", "_id" => some .allow
  | "Post", "content" => some .allow
  | "Post", "author" => some .allow
  | "Post", "postedAt" => some .allow
  | "Post", "flagged" => some .allow
  | "Post", "locked" => some .allow
  | "Mutation", "createCategory" => some .allow
  | "Mutation", "editCategory" => some .allow
  | "Mutation", "deleteCategory" => some .allow
  | "Mutation", "assignModerator" => some (.atom (.argHasRole .MODERATOR))
  | "Mutation", "removeModerator" => some .allow
  | "Mutation", "setRole" => some .allow
  | "Mutation", "deleteUser" => some .allow
  | "Mutation", "removeCategories" => some .allow
  | "Mutation", "deletePost" => some (.atom .argIsLocked)
  | "Mutation", "flagPost" => some .allow
  | "Mutation", "review" => some (.atom .argIsFlagged)
  | "Mutation", "unlockPost" => some .allow
  | _, _ => none

/-- Modelled from the spec, section 4.2: the OR helper of
src/rb_permissions/inheritance (not included in the sources) merges two
rule maps field-by-field; for each (type, field) key the extension's rule
is taken if present, else the base's rule (shallow, field-level override). -/
def OR (base ext : RuleMap) : RuleMap := fun ty f =>
  match ext ty f with
  | some r => some r
  | none => base ty f

/-- Modelled from the spec, section 4.2: composing more than two maps
folds left-to-right, later maps winning conflicts (the variadic use
OR(FREE, PREMIUM, ...) in src/rb_permissions/index.ts). -/
def ORs (base : RuleMap) (exts : List RuleMap) : RuleMap :=
  exts.foldl OR base

/-- The policy table of src/rb_permissions/index.ts (the rbac argument):
FREE is self-contained, PREMIUM is OR(FREE, PREMIUM), MODERATOR is
OR(FREE, PREMIUM, MODERATOR), ADMINISTRATOR is
OR(FREE, PREMIUM, MODERATOR, ADMINISTRATOR). -/
def policy : Role → RuleMap
  | .FREE => FREE
  | .PREMIUM => ORs FREE [PREMIUM]
  | .MODERATOR => ORs FREE [PREMIUM, MODERATOR]
  | .ADMINISTRATOR => ORs FREE [PREMIUM, MODERATOR, ADMINISTRATOR]

/-- The externally observable authorization decision. It carries no
message: a denial is opaque to the caller. -/
inductive Decision
  | allow
  | deny
deriving DecidableEq, Repr

/-- Outcome of one evaluation: the caller-observable decision plus the
internal diagnostic channel (the error message logged in debug mode,
never part of the decision itself). -/
structure Outcome where
  decision : Decision
  diag : Option String
deriving DecidableEq, Repr

/-- Modelled from the spec, sections 4.3 and 4.4: rule resolution of the
rbac helper of src/rb_permissions/inheritance (not included in the
sources). An anonymous principal resolves through the default map only;
an authenticated principal resolves through its role's map, then the
default map; a key absent from both gets the global fallback rule deny
(the fallbackRule of the shield options in src/rb_permissions/index.ts). -/
def resolveRule (table : Role → RuleMap) (defaults : RuleMap)
    (principal : Option Role) (ty f : String) : Rule :=
  match principal with
  | none =>
    match defaults ty f with
    | some r => r
    | none => .deny
  | some role =>
    match table role ty f with
    | some r => r
    | none =>
      match defaults ty f with
      | some r => r
      | none => .deny

/-- Modelled from the spec, sections 4.4 and 7: the evaluator maps a rule
result to an outcome; an Error is recovered into Deny, its message kept
only in the internal diagnostic channel. -/
def runRule : RRes → Outcome
  | .allow => ⟨.allow, none⟩
  | .deny => ⟨.deny, none⟩
  | .err m => ⟨.deny, some m⟩

/-- Modelled from the spec, section 4.4: one full authorization check of
the evaluator (resolve the applicable rule, execute it, recover errors
into Deny). -/
def evaluate (table : Role → RuleMap) (defaults : RuleMap)
    (env : Atom → RRes) (principal : Option Role) (ty f : String) : Outcome :=
  runRule (evalRule env (resolveRule table defaults principal ty f))

/-- The shield instance of src/rb_permissions/index.ts: the evaluator over
the policy table and DEFAULTS, with fallback rule deny. -/
def gate (env : Atom → RRes) (principal : Option Role) (ty f : String) :
    Outcome :=
  evaluate policy DEFAULTS env principal ty f

/-- Lifts a boolean valuation of the atomic predicates to an environment
without errors, for stating purely boolean facts about composed rules. -/
def boolEnv (b : Atom → Bool) : Atom → RRes :=
  fun a => if b a then .allow else .deny

/-- An event document as the promote resolver sees it: its id, the list
of attendant user ids and the list of manager user ids (the fields the
resolver's query and update touch). -/
structure EventDoc where
  _id : String
  attendants : List String
  managers : List String
deriving DecidableEq, Repr

/-- The addToSet update operator: appends the element unless it is
already present. -/
def addToSet (x : String) (l : List String) : List String :=
  if x ∈ l then l else l ++ [x]

/-- The findOneAndUpdate query semantics: apply the update to the first
document matching the filter, leaving every other document unchanged. -/
def updateFirst (p : EventDoc → Bool) (f : EventDoc → EventDoc) :
    List EventDoc → List EventDoc
  | [] => []
  | d :: ds => if p d then f d :: ds else d :: updateFirst p f ds

/-- The Mutation.promote resolver of the mutation resolver source file:
findOneAndUpdate with filter on both the event id and attendants
containing the user, and update addToSet the user into managers. -/
def promote (store : List EventDoc) (user event : String) :
    List EventDoc :=
  updateFirst (fun d => d._id == event && d.attendants.contains user)
    (fun d => { d with managers := addToSet user d.managers }) store

theorem findSome_append {α β : Type} (g : α → Option β) (l₁ l₂ : List α) :
    (l₁ ++ l₂).findSome? g =
      match l₁.findSome? g with
      | some b => some b
      | none => l₂.findSome? g := by
  induction l₁ with
  | nil => simp
  | cons a l ih =>
      simp only [List.cons_append, List.findSome?_cons]
      cases g a <;> simp [ih]

theorem ORs_lookup (exts : List RuleMap) (base : RuleMap) (ty f : String) :
    ORs base exts ty f = ((base :: exts).reverse.findSome? fun m => m ty f) := by
  induction exts generalizing base with
  | nil =>
      show base ty f = ([base].reverse.findSome? fun m => m ty f)
      cases h : base ty f <;> simp [List.findSome?_cons, h]
  | cons e es ih =>
      show ORs (OR base e) es ty f = _
      rw [ih (OR base e)]
      simp only [List.reverse_cons, findSome_append, List.findSome?_cons,
        List.findSome?_nil]
      unfold OR
      cases h : e ty f <;>
        cases hs : List.findSome? (fun m => m ty f) es.reverse <;> simp [hs]

theorem updateFirst_no_match (p : EventDoc → Bool) (f : EventDoc → EventDoc) :
    ∀ l : List EventDoc, (∀ d ∈ l, p d = false) → updateFirst p f l = l := by
  intro l h
  induction l with
  | nil => rfl
  | cons d ds ih =>
      unfold updateFirst
      rw [h d (by simp)]
      simp only [if_neg Bool.false_ne_true]
      rw [ih (fun x hx => h x (List.mem_cons_of_mem d hx))]

theorem updateFirst_mem (p : EventDoc → Bool) (f : EventDoc → EventDoc) :
    ∀ l : List EventDoc, ∀ x ∈ updateFirst p f l,
      x ∈ l ∨ ∃ d ∈ l, p d = true ∧ x = f d := by
  intro l
  induction l with
  | nil => intro x hx; exact absurd hx (by simp [updateFirst])
  | cons d ds ih =>
      intro x hx
      unfold updateFirst at hx
      by_cases hd : p d = true
      · rw [if_pos hd] at hx
        rcases List.mem_cons.mp hx with h | h
        · exact Or.inr ⟨d, by simp, hd, h⟩
        · exact Or.inl (List.mem_cons_of_mem d h)
      · rw [if_neg hd] at hx
        rcases List.mem_cons.mp hx with h | h
        · exact Or.inl (by simp [h])
        · rcases ih x h with h1 | ⟨d1, hd1, hp1, hx1⟩
          · exact Or.inl (List.mem_cons_of_mem d h1)
          · exact Or.inr ⟨d1, List.mem_cons_of_mem d hd1, hp1, hx1⟩

theorem promote_filter_false (d : EventDoc) (user event : String)
    (h : d._id = event → user ∉ d.attendants) :
    (d._id == event && d.attendants.contains user) = false := by
  cases heq : d._id == event with
  | false => simp
  | true =>
      simp only [Bool.true_and]
      have : user ∉ d.attendants := h (by simpa using heq)
      simpa using this

theorem promote_filter_true (d : EventDoc) (user event : String)
    (h : (d._id == event && d.attendants.contains user) = true) :
    d._id = event ∧ user ∈ d.attendants := by
  simp only [Bool.and_eq_true, beq_iff_eq] at h
  exact ⟨h.1, List.mem_of_elem_eq_true h.2⟩

/-- C1: for a principal with role PREMIUM, evaluating Mutation.createEvent
with a private event argument yields Allow: PREMIUM's effective map takes
PREMIUM's declared allow for createEvent, which fully replaces FREE's
base rule not(argIsPrivate). -/
theorem premium_createEvent_allow :
    policy Role.PREMIUM "Mutation" "createEvent" = some Rule.allow ∧
    FREE "Mutation" "createEvent" = some (Rule.not (.atom .argIsPrivate)) ∧
    PREMIUM "Mutation" "createEvent" = some Rule.allow ∧
    ∀ env : Atom → RRes, env .argIsPrivate = .allow →
      (gate env (some .PREMIUM) "Mutation" "createEvent").decision = .allow :=
  ⟨rfl, rfl, rfl, fun _ _ => rfl⟩

theorem premium_createEvent_allow_witness :
    (fun _ : Atom => RRes.allow) Atom.argIsPrivate = RRes.allow ∧
    (gate (fun _ => RRes.allow) (some .PREMIUM) "Mutation" "createEvent").decision
      = .allow :=
  ⟨rfl, premium_createEvent_allow.2.2.2 (fun _ => RRes.allow) rfl⟩

/-- C2: the composed map takes the extension's rule when the extension
declares the key and the base's rule otherwise; composing more maps folds
left-to-right with later maps winning, so each tier's effective rule is
the last declaring tier's rule, with the hierarchy of the source's policy
table. -/
theorem compose_override_semantics :
    (∀ (base ext : RuleMap) (ty f : String) (r : Rule),
        ext ty f = some r → OR base ext ty f = some r) ∧
    (∀ (base ext : RuleMap) (ty f : String),
        ext ty f = none → OR base ext ty f = base ty f) ∧
    (∀ (base : RuleMap) (exts : List RuleMap) (ty f : String),
        ORs base exts ty f =
          ((base :: exts).reverse.findSome? fun m => m ty f)) ∧
    policy Role.PREMIUM = ORs FREE [PREMIUM] ∧
    policy Role.MODERATOR = ORs FREE [PREMIUM, MODERATOR] ∧
    policy Role.ADMINISTRATOR = ORs FREE [PREMIUM, MODERATOR, ADMINISTRATOR] ∧
    ∀ ty f : String,
      policy Role.ADMINISTRATOR ty f =
        ([FREE, PREMIUM, MODERATOR, ADMINISTRATOR].reverse.findSome?
          fun m => m ty f) := by
  refine ⟨?_, ?_, ?_, rfl, rfl, rfl, ?_⟩
  · intro base ext ty f r h
    unfold OR
    rw [h]
  · intro base ext ty f h
    unfold OR
    rw [h]
  · intro base exts ty f
    exact ORs_lookup exts base ty f
  · intro ty f
    exact ORs_lookup [PREMIUM, MODERATOR, ADMINISTRATOR] FREE ty f

theorem compose_override_semantics_witness :
    PREMIUM "Mutation" "createEvent" = some Rule.allow ∧
    OR FREE PREMIUM "Mutation" "createEvent" = some Rule.allow ∧
    PREMIUM "Mutation" "promote" = none ∧
    OR FREE PREMIUM "Mutation" "promote" = FREE "Mutation" "promote" :=
  ⟨rfl,
   compose_override_semantics.1 FREE PREMIUM "Mutation" "createEvent"
     Rule.allow rfl,
   rfl,
   compose_override_semantics.2.1 FREE PREMIUM "Mutation" "promote" rfl⟩

/-- C3: for a principal with role ADMINISTRATOR, evaluating
Mutation.review with a non-flagged referenced Post yields Deny: the
composed effective rule for review is ADMINISTRATOR's declared
argIsFlagged, not a blanket allow. -/
theorem administrator_review_requires_flagged :
    policy Role.ADMINISTRATOR "Mutation" "review"
      = some (Rule.atom .argIsFlagged) ∧
    ADMINISTRATOR "Mutation" "review" = some (Rule.atom .argIsFlagged) ∧
    ∀ env : Atom → RRes, env .argIsFlagged = .deny →
      (gate env (some .ADMINISTRATOR) "Mutation" "review").decision = .deny := by
  refine ⟨rfl, rfl, ?_⟩
  intro env h
  show (runRule (evalRule env
    (resolveRule policy DEFAULTS (some .ADMINISTRATOR) "Mutation" "review"))).decision
      = .deny
  have hres : resolveRule policy DEFAULTS (some .ADMINISTRATOR)
      "Mutation" "review" = .atom .argIsFlagged := rfl
  rw [hres]
  show (runRule (env .argIsFlagged)).decision = .deny
  rw [h]
  rfl

theorem administrator_review_requires_flagged_witness :
    (fun _ : Atom => RRes.deny) Atom.argIsFlagged = RRes.deny ∧
    (gate (fun _ => RRes.deny) (some .ADMINISTRATOR) "Mutation" "review").decision
      = .deny :=
  ⟨rfl,
   administrator_review_requires_flagged.2.2 (fun _ => RRes.deny) rfl⟩

/-- C4: a (type, field) pair absent from the acting role's effective map
and from the default map resolves to the fallback rule deny, for
authenticated and anonymous principals alike, whatever the environment. -/
theorem fallback_deny :
    ∀ (env : Atom → RRes) (p : Option Role) (ty f : String),
      (∀ r : Role, p = some r → policy r ty f = none) →
      DEFAULTS ty f = none →
      gate env p ty f = ⟨.deny, none⟩ := by
  intro env p ty f hrole hdef
  cases p with
  | none =>
      show runRule (evalRule env (resolveRule policy DEFAULTS none ty f)) = _
      have hres : resolveRule policy DEFAULTS none ty f = Rule.deny := by
        simp [resolveRule, hdef]
      rw [hres]
      rfl
  | some r =>
      show runRule (evalRule env
        (resolveRule policy DEFAULTS (some r) ty f)) = _
      have hres : resolveRule policy DEFAULTS (some r) ty f = Rule.deny := by
        simp [resolveRule, hrole r rfl, hdef]
      rw [hres]
      rfl

theorem fallback_deny_witness :
    (∀ r : Role, (some Role.FREE : Option Role) = some r →
        policy r "Session" "token" = none) ∧
    DEFAULTS "Session" "token" = none ∧
    gate (fun _ => RRes.allow) (some Role.FREE) "Session" "token"
      = ⟨.deny, none⟩ := by
  refine ⟨?_, rfl, ?_⟩
  · intro r h
    cases h
    rfl
  · exact fallback_deny (fun _ => .allow) (some Role.FREE) "Session" "token"
      (by intro r h; cases h; rfl) rfl

/-- C5: an anonymous principal resolves through the default map only (the
outcome is invariant under any change of the role table), and a field
declared only in FREE and absent from the default map, such as User.name,
denies for anonymous principals. -/
theorem anonymous_uses_defaults_only :
    (∀ (table₁ table₂ : Role → RuleMap) (env : Atom → RRes) (ty f : String),
        evaluate table₁ DEFAULTS env none ty f
          = evaluate table₂ DEFAULTS env none ty f) ∧
    FREE "User" "name" = some Rule.allow ∧
    DEFAULTS "User" "name" = none ∧
    ∀ env : Atom → RRes, (gate env none "User" "name").decision = .deny := by
  refine ⟨fun _ _ _ _ _ => rfl, rfl, rfl, ?_⟩
  intro env
  rfl

/-- C6: a rule whose evaluation throws is recovered by the evaluator: the
outcome is Deny with the message kept only in the diagnostic channel, and
the observable decision is the same whatever the message was. -/
theorem rule_error_recovered_to_deny :
    (∀ (table : Role → RuleMap) (defaults : RuleMap) (env : Atom → RRes)
        (p : Option Role) (ty f m : String),
        evalRule env (resolveRule table defaults p ty f) = .err m →
        evaluate table defaults env p ty f = ⟨.deny, some m⟩) ∧
    ∀ m₁ m₂ : String,
      (runRule (.err m₁)).decision = (runRule (.err m₂)).decision := by
  refine ⟨?_, fun _ _ => rfl⟩
  intro table defaults env p ty f m h
  unfold evaluate
  rw [h]
  rfl

theorem rule_error_recovered_to_deny_witness :
    evalRule (fun _ => RRes.allow)
      (resolveRule (fun _ => fun _ _ => none)
        (fun _ _ => some (Rule.err "boom")) none "Post" "flagged")
      = .err "boom" ∧
    evaluate (fun _ => fun _ _ => none) (fun _ _ => some (Rule.err "boom"))
      (fun _ => RRes.allow) none "Post" "flagged" = ⟨.deny, some "boom"⟩ :=
  ⟨rfl,
   rule_error_recovered_to_deny.1 (fun _ => fun _ _ => none)
     (fun _ _ => some (Rule.err "boom")) (fun _ => RRes.allow) none
     "Post" "flagged" "boom" rfl⟩

/-- C7: the empty-list identities of the boolean combinators: and of no
children yields Allow for every environment, or of no children yields
Deny. -/
theorem empty_combinator_identities :
    ∀ env : Atom → RRes,
      evalRule env (.and []) = .allow ∧ evalRule env (.or []) = .deny :=
  fun _ => ⟨rfl, rfl⟩

/-- C8: for every role tier and for anonymous principals, the effective
rule for Mutation.createUser and Mutation.login is the constant allow
rule, declared allow in DEFAULTS and FREE and overridden by no tier, so
both fields evaluate to Allow in every environment. -/
theorem createUser_login_always_allow :
    ∀ p : Option Role,
      resolveRule policy DEFAULTS p "Mutation" "createUser" = Rule.allow ∧
      resolveRule policy DEFAULTS p "Mutation" "login" = Rule.allow ∧
      DEFAULTS "Mutation" "createUser" = some Rule.allow ∧
      FREE "Mutation" "createUser" = some Rule.allow ∧
      DEFAULTS "Mutation" "login" = some Rule.allow ∧
      FREE "Mutation" "login" = some Rule.allow ∧
      (∀ env : Atom → RRes,
        (gate env p "Mutation" "createUser").decision = .allow) ∧
      ∀ env : Atom → RRes,
        (gate env p "Mutation" "login").decision = .allow := by
  intro p
  rcases p with _ | r
  · exact ⟨rfl, rfl, rfl, rfl, rfl, rfl, fun _ => rfl, fun _ => rfl⟩
  · cases r <;>
      exact ⟨rfl, rfl, rfl, rfl, rfl, rfl, fun _ => rfl, fun _ => rfl⟩

/-- C9: the Mutation.promote resolver adds the target user to an event's
managers only when the user already attends the event: its query matches
on both the event id and attendants containing the user, so with no
attending match the store is unchanged, and every updated document came
from a matching one. -/
theorem promote_requires_attendance :
    ∀ (store : List EventDoc) (user event : String),
      ((∀ d ∈ store, d._id = event → user ∉ d.attendants) →
        promote store user event = store) ∧
      ∀ x ∈ promote store user event,
        x ∈ store ∨ ∃ d ∈ store, d._id = event ∧ user ∈ d.attendants ∧
          x = { d with managers := addToSet user d.managers } := by
  intro store user event
  constructor
  · intro h
    exact updateFirst_no_match _ _ store
      (fun d hd => promote_filter_false d user event (h d hd))
  · intro x hx
    rcases updateFirst_mem _ _ store x hx with h | ⟨d, hd, hp, hxd⟩
    · exact Or.inl h
    · rcases promote_filter_true d user event hp with ⟨h1, h2⟩
      exact Or.inr ⟨d, hd, h1, h2, hxd⟩

theorem promote_requires_attendance_witness :
    (∀ d ∈ [EventDoc.mk "e1" ["alice"] ["olly"]],
        d._id = "e1" → "bob" ∉ d.attendants) ∧
    promote [EventDoc.mk "e1" ["alice"] ["olly"]] "bob" "e1"
      = [EventDoc.mk "e1" ["alice"] ["olly"]] :=
  ⟨by decide,
   (promote_requires_attendance [EventDoc.mk "e1" ["alice"] ["olly"]]
     "bob" "e1").1 (by decide)⟩

/-- C10: under the FREE map, inherited unchanged by every tier,
Mutation.kick authorizes exactly when the caller is the target or manages
the event and not when the caller both owns the event and is the target;
Mutation.demote authorizes exactly when the caller owns the event and the
target is not the caller; in particular an owner can never kick or demote
themselves. -/
theorem kick_demote_owner_safe :
    ∀ (role : Role) (b : Atom → Bool),
      policy role "Mutation" "kick" = FREE "Mutation" "kick" ∧
      policy role "Mutation" "demote" = FREE "Mutation" "demote" ∧
      (evalRule (boolEnv b) ((FREE "Mutation" "kick").getD .deny) = .allow ↔
        ((b (.isCaller .ARG) = true ∨ b .callerManagesArg = true) ∧
         ¬(b .callerOwnsArg = true ∧ b (.isCaller .ARG) = true))) ∧
      (evalRule (boolEnv b) ((FREE "Mutation" "demote").getD .deny) = .allow ↔
        (b .callerOwnsArg = true ∧ ¬b (.isCaller .ARG) = true)) ∧
      (b .callerOwnsArg = true → b (.isCaller .ARG) = true →
        evalRule (boolEnv b) ((FREE "Mutation" "kick").getD .deny) = .deny ∧
        evalRule (boolEnv b) ((FREE "Mutation" "demote").getD .deny) = .deny) := by
  intro role b
  refine ⟨by cases role <;> rfl, by cases role <;> rfl, ?_, ?_, ?_⟩
  · show evalRule (boolEnv b)
      (.and [.not (.and [.atom .callerOwnsArg, .atom (.isCaller .ARG)]),
             .or [.atom (.isCaller .ARG), .atom .callerManagesArg]]) = .allow ↔ _
    cases h1 : b (.isCaller .ARG) <;> cases h2 : b .callerOwnsArg <;>
      cases h3 : b .callerManagesArg <;>
        simp [evalRule, evalAnd, evalOr, andStep, orStep, notStep, boolEnv,
          h1, h2, h3]
  · show evalRule (boolEnv b)
      (.and [.atom .callerOwnsArg, .not (.atom (.isCaller .ARG))]) = .allow ↔ _
    cases h1 : b (.isCaller .ARG) <;> cases h2 : b .callerOwnsArg <;>
      simp [evalRule, evalAnd, evalOr, andStep, orStep, notStep, boolEnv,
        h1, h2]
  · intro h1 h2
    constructor
    · show evalRule (boolEnv b)
        (.and [.not (.and [.atom .callerOwnsArg, .atom (.isCaller .ARG)]),
               .or [.atom (.isCaller .ARG), .atom .callerManagesArg]]) = .deny
      simp [evalRule, evalAnd, evalOr, andStep, orStep, notStep, boolEnv,
        h1, h2]
    · show evalRule (boolEnv b)
        (.and [.atom .callerOwnsArg, .not (.atom (.isCaller .ARG))]) = .deny
      simp [evalRule, evalAnd, evalOr, andStep, orStep, notStep, boolEnv,
        h1, h2]

theorem kick_demote_owner_safe_witness :
    (fun _ : Atom => true) Atom.callerOwnsArg = true ∧
    (fun _ : Atom => true) (Atom.isCaller .ARG) = true ∧
    evalRule (boolEnv fun _ => true)
      ((FREE "Mutation" "kick").getD .deny) = .deny ∧
    evalRule (boolEnv fun _ => true)
      ((FREE "Mutation" "demote").getD .deny) = .deny :=
  ⟨rfl, rfl,
   ((kick_demote_owner_safe Role.FREE (fun _ => true)).2.2.2.2 rfl rfl).1,
   ((kick_demote_owner_safe Role.FREE (fun _ => true)).2.2.2.2 rfl rfl).2⟩
